import Mathlib

/-!
Verification development for the music_links traversal engine.

The definitions below are a shallow embedding of the Python sources:
`services/traversal_manager.py` (SmartTraversalQueue, QueueBasedTraversalManager),
`services/release_processor.py` (ReleaseProcessor.extract_artists_from_release),
`services/artist_processor.py` (ArtistProcessor.get_or_create_artist) and
`services/api_client.py` (DiscogsAPIClient._execute_with_retry).

Modelling conventions: Python `str` ids become `String`; Python floats that are
only stored or compared (priorities, time limits, elapsed times, backoffs)
become `ℚ`; wall-clock reads become inputs supplied by an abstract world
(`elapsed` indexed by loop iteration, `discoveryTime` by a monotone tick);
Python `Optional` fields become `Option`; Python truthiness of optional
numbers (`if self.max_size and ...`) is modelled by the explicit test
`≠ 0` on the wrapped value.
-/

namespace MusicLinks

abbrev DiscogsId := String

/-- `QueueStrategy` enum of `traversal_manager.py`. -/
inductive QueueStrategy where
  | bfs
  | dfs
  | priorityBased
deriving DecidableEq, Repr

/-- `TerminationReason` enum of `traversal_manager.py`. -/
inductive TerminationReason where
  | maxArtistsReached
  | queueEmpty
  | timeLimitExceeded
  | errorThresholdExceeded
  | manualStop
deriving DecidableEq, Repr

/-- `ArtistQueueItem` dataclass. `discoveryTime` models `time.time()` as a
monotone tick supplied at creation. -/
structure ArtistQueueItem where
  discogsId : DiscogsId
  depth : Nat := 0
  priorityScore : ℚ := 0
  parentId : Option DiscogsId := none
  discoveryTime : Nat := 0
deriving DecidableEq, Repr

/-- `TraversalConfig` dataclass (the fields the traversal logic reads). -/
structure TraversalConfig where
  maxArtists : Nat := 100
  includeExtraArtists : Bool := true
  includeCredits : Bool := true
  queueStrategy : QueueStrategy := .bfs
  maxQueueSize : Option Nat := none
  maxDepth : Option Nat := none
  timeLimitSeconds : Option ℚ := none
  errorThreshold : Option Nat := none
deriving DecidableEq, Repr

/-- The mutable state of `SmartTraversalQueue`. The BFS/DFS storage is a list
(appends at the tail); the priority heap is modelled extensionally as the same
list, with `getNext` selecting the minimal heap key `(-priority, discovery_time)`. -/
structure SmartTraversalQueue where
  strategy : QueueStrategy
  maxSize : Option Nat
  queue : List ArtistQueueItem := []
  seen : List DiscogsId := []
  processed : List DiscogsId := []
  peakSize : Nat := 0
  totalAdditions : Nat := 0
  depthMap : List (DiscogsId × Nat) := []
deriving DecidableEq, Repr

/-- Python truthiness test `self.max_size and len(self._queue) >= self.max_size`:
a `None` or `0` max size never limits. -/
def sizeLimitReached (maxSize : Option Nat) (queueLength : Nat) : Bool :=
  match maxSize with
  | none => false
  | some m => decide (m ≠ 0) && decide (m ≤ queueLength)

/-- `SmartTraversalQueue.add`: reject if already seen or queue full, else append
and update seen-set, depth map, addition count and peak size. Returns the new
state and the `True`/`False` result. -/
def SmartTraversalQueue.add (q : SmartTraversalQueue) (item : ArtistQueueItem) :
    SmartTraversalQueue × Bool :=
  if item.discogsId ∈ q.seen then (q, false)
  else if sizeLimitReached q.maxSize q.queue.length then (q, false)
  else
    let queue' := q.queue ++ [item]
    ({ q with
        queue := queue'
        seen := item.discogsId :: q.seen
        depthMap := (item.discogsId, item.depth) :: q.depthMap
        totalAdditions := q.totalAdditions + 1
        peakSize := max q.peakSize queue'.length }, true)

/-- `heapq` ordering on `(-priority, discovery_time)`: `a` pops before `b`. -/
def heapBefore (a b : ArtistQueueItem) : Bool :=
  decide (b.priorityScore < a.priorityScore) ||
    (decide (a.priorityScore = b.priorityScore) && decide (a.discoveryTime < b.discoveryTime))

/-- Select the heap minimum from a nonempty collection, returning it together
with the remaining items. -/
def popBest : ArtistQueueItem → List ArtistQueueItem → ArtistQueueItem × List ArtistQueueItem
  | b, [] => (b, [])
  | b, x :: xs =>
    if heapBefore x b then
      let r := popBest x xs
      (r.1, b :: r.2)
    else
      let r := popBest b xs
      (r.1, x :: r.2)

/-- `SmartTraversalQueue.get_next`: pop per strategy (FIFO front, LIFO back,
priority minimum-key) and record the popped id in the processed set. -/
def SmartTraversalQueue.getNext (q : SmartTraversalQueue) :
    Option (ArtistQueueItem × SmartTraversalQueue) :=
  match q.queue with
  | [] => none
  | x :: xs =>
    let r :=
      match q.strategy with
      | .bfs => (x, xs)
      | .dfs => ((x :: xs).getLast (by simp), (x :: xs).dropLast)
      | .priorityBased => popBest x xs
    some (r.1, { q with
      queue := r.2
      processed :=
        if r.1.discogsId ∈ q.processed then q.processed else r.1.discogsId :: q.processed })

/-- `SmartTraversalQueue.is_empty`. -/
def SmartTraversalQueue.isEmpty (q : SmartTraversalQueue) : Bool :=
  q.queue.length == 0

/-- Truthiness check `config.time_limit_seconds and stats.elapsed_time > limit`. -/
def timeLimitHit (limit : Option ℚ) (elapsed : ℚ) : Bool :=
  match limit with
  | none => false
  | some t => decide (t ≠ 0) && decide (t < elapsed)

/-- Truthiness check `config.error_threshold and stats.errors >= threshold`. -/
def errorThresholdHit (threshold : Option Nat) (errors : Nat) : Bool :=
  match threshold with
  | none => false
  | some n => decide (n ≠ 0) && decide (n ≤ errors)

/-- `SmartTraversalQueue.should_terminate`. `artistsProcessed`, `errors` and
`elapsedTime` are the fields of the statistics argument that the method reads
(`elapsed_time` is a wall-clock read, so it is an input here). -/
def SmartTraversalQueue.shouldTerminate (q : SmartTraversalQueue) (config : TraversalConfig)
    (artistsProcessed errors : Nat) (elapsedTime : ℚ) : Option TerminationReason :=
  if config.maxArtists ≤ artistsProcessed then some .maxArtistsReached
  else if q.isEmpty then some .queueEmpty
  else if timeLimitHit config.timeLimitSeconds elapsedTime then some .timeLimitExceeded
  else if errorThresholdHit config.errorThreshold errors then some .errorThresholdExceeded
  else none

/-- `SmartTraversalQueue.can_accept_more`: `max(0, min(max_artists − processed −
len(queue), max_queue_size − len(queue)))`, where a falsy (`None` or `0`)
`max_size` contributes `float('inf')`. Computed in `Int` as Python ints. -/
def SmartTraversalQueue.canAcceptMore (q : SmartTraversalQueue) (config : TraversalConfig)
    (artistsProcessed : Nat) : Int :=
  let remainingForProcessing : Int :=
    (config.maxArtists : Int) - (artistsProcessed : Int) - (q.queue.length : Int)
  let bounded : Int :=
    match q.maxSize with
    | none => remainingForProcessing
    | some m =>
      if m ≠ 0 then min remainingForProcessing ((m : Int) - (q.queue.length : Int))
      else remainingForProcessing
  max 0 bounded

/-- A fresh `SmartTraversalQueue` as built in `__init__`. -/
def SmartTraversalQueue.init (strategy : QueueStrategy) (maxSize : Option Nat) :
    SmartTraversalQueue :=
  { strategy := strategy, maxSize := maxSize }

/-- The spec's admission-budget sentence, taken literally: `min(max_artists −
processed_count − pending_count, max_queue_size − pending_count)`, floored at
zero, with the `max_queue_size` term present exactly when a max size is
configured (`some`). -/
def specAdmissionBudget (maxArtists : Nat) (maxQueueSize : Option Nat)
    (processedCount pendingCount : Nat) : Int :=
  let p : Int := (maxArtists : Int) - (processedCount : Int) - (pendingCount : Int)
  match maxQueueSize with
  | none => max 0 p
  | some m => max 0 (min p ((m : Int) - (pendingCount : Int)))

/-- The spec's admission-budget formula amended to follow Python truthiness:
a configured max size of `0` is treated as unbounded, exactly like `none`. -/
def specAdmissionBudgetTruthy (maxArtists : Nat) (maxQueueSize : Option Nat)
    (processedCount pendingCount : Nat) : Int :=
  let p : Int := (maxArtists : Int) - (processedCount : Int) - (pendingCount : Int)
  match maxQueueSize with
  | none => max 0 p
  | some m => if m = 0 then max 0 p else max 0 (min p ((m : Int) - (pendingCount : Int)))

/-- An abstract client operation against a `SmartTraversalQueue`: an `add` call
with some item, or a `get_next` call. -/
inductive QueueOp where
  | offer (item : ArtistQueueItem)
  | pullNext
deriving Repr

/-- Run a sequence of `add`/`get_next` calls, recording the ids returned by
`get_next` (the pop trace) in order. -/
def runQueueOps : List QueueOp → SmartTraversalQueue → List DiscogsId →
    SmartTraversalQueue × List DiscogsId
  | [], q, tr => (q, tr)
  | .offer item :: rest, q, tr => runQueueOps rest (q.add item).1 tr
  | .pullNext :: rest, q, tr =>
    match q.getNext with
    | none => runQueueOps rest q tr
    | some p => runQueueOps rest p.2 (tr ++ [p.1.discogsId])

/-- Number of `add` calls (offers) in an operation sequence. -/
def countOffers : List QueueOp → Nat
  | [] => 0
  | .offer _ :: rest => countOffers rest + 1
  | .pullNext :: rest => countOffers rest

/-- The reachable-state invariant of `SmartTraversalQueue` relative to the trace
`tr` of ids popped so far: the seen-set has no duplicates and is exactly the
pending ids together with the popped ids, and the processed set is exactly the
popped ids. -/
def QueueInv (q : SmartTraversalQueue) (tr : List DiscogsId) : Prop :=
  q.seen.Nodup ∧
  q.seen.Perm (q.queue.map ArtistQueueItem.discogsId ++ tr) ∧
  q.processed.Perm tr

theorem queueInv_init (strategy : QueueStrategy) (maxSize : Option Nat) :
    QueueInv (SmartTraversalQueue.init strategy maxSize) [] := by
  refine ⟨List.nodup_nil, ?_, List.Perm.refl _⟩
  simp [SmartTraversalQueue.init]

theorem queueInv_add {q : SmartTraversalQueue} {tr : List DiscogsId}
    (h : QueueInv q tr) (item : ArtistQueueItem) : QueueInv (q.add item).1 tr := by
  obtain ⟨hnd, hperm, hproc⟩ := h
  unfold SmartTraversalQueue.add
  split
  · exact ⟨hnd, hperm, hproc⟩
  · split
    · exact ⟨hnd, hperm, hproc⟩
    · rename_i hmem _
      refine ⟨?_, ?_, hproc⟩
      · exact List.Nodup.cons hmem hnd
      · simp only [List.map_append, List.map_cons, List.map_nil]
        have h1 : (item.discogsId :: q.seen).Perm
            (item.discogsId :: (q.queue.map ArtistQueueItem.discogsId ++ tr)) :=
          hperm.cons _
        refine h1.trans ?_
        have h2 : (q.queue.map ArtistQueueItem.discogsId ++ [item.discogsId]) ++ tr =
            q.queue.map ArtistQueueItem.discogsId ++ (item.discogsId :: tr) := by
          simp
        rw [h2]
        exact List.perm_middle.symm

theorem popBest_perm : ∀ (b : ArtistQueueItem) (l : List ArtistQueueItem),
    (b :: l).Perm ((popBest b l).1 :: (popBest b l).2)
  | _, [] => List.Perm.refl _
  | b, x :: xs => by
    have ihx := popBest_perm x xs
    have ihb := popBest_perm b xs
    unfold popBest
    split
    · dsimp only
      exact (ihx.cons b).trans (List.Perm.swap _ _ _)
    · dsimp only
      exact (List.Perm.swap x b xs).trans ((ihb.cons x).trans (List.Perm.swap _ _ _))

/-- What a successful `get_next` does: it removes one item from the pending
collection (which one depends on the strategy), leaves the seen-set, limits and
counters alone, and inserts the popped id into the processed set. -/
theorem getNext_eq_some {q q' : SmartTraversalQueue} {it : ArtistQueueItem}
    (h : q.getNext = some (it, q')) :
    q.queue.Perm (it :: q'.queue) ∧
    q'.seen = q.seen ∧ q'.strategy = q.strategy ∧ q'.maxSize = q.maxSize ∧
    q'.processed =
      (if it.discogsId ∈ q.processed then q.processed else it.discogsId :: q.processed) := by
  rcases hq : q.queue with _ | ⟨x, xs⟩
  · simp [SmartTraversalQueue.getNext, hq] at h
  · rcases hs : q.strategy with _ | _ | _
    · simp only [SmartTraversalQueue.getNext, hq, hs, Option.some.injEq,
        Prod.mk.injEq] at h
      obtain ⟨h1, h2⟩ := h
      subst h1; subst h2
      exact ⟨List.Perm.refl _, rfl, rfl, rfl, rfl⟩
    · simp only [SmartTraversalQueue.getNext, hq, hs, Option.some.injEq,
        Prod.mk.injEq] at h
      obtain ⟨h1, h2⟩ := h
      subst h1; subst h2
      refine ⟨?_, rfl, rfl, rfl, rfl⟩
      conv_lhs => rw [← List.dropLast_append_getLast (l := x :: xs) (by simp)]
      exact List.perm_append_comm
    · simp only [SmartTraversalQueue.getNext, hq, hs, Option.some.injEq,
        Prod.mk.injEq] at h
      obtain ⟨h1, h2⟩ := h
      subst h1; subst h2
      exact ⟨popBest_perm x xs, rfl, rfl, rfl, rfl⟩

theorem queueInv_getNext {q q' : SmartTraversalQueue} {tr : List DiscogsId}
    {it : ArtistQueueItem} (h : QueueInv q tr) (hg : q.getNext = some (it, q')) :
    QueueInv q' (tr ++ [it.discogsId]) := by
  obtain ⟨hnd, hperm, hproc⟩ := h
  obtain ⟨hqperm, hseen, _, _, hprocEq⟩ := getNext_eq_some hg
  have hmemq : it.discogsId ∈ q.queue.map ArtistQueueItem.discogsId := by
    have : it ∈ q.queue := hqperm.mem_iff.mpr (List.mem_cons_self _ _)
    exact List.mem_map_of_mem _ this
  have hndApp : (q.queue.map ArtistQueueItem.discogsId ++ tr).Nodup := hperm.nodup hnd
  have hdisj := (List.nodup_append.mp hndApp).2.2
  have hnotTr : it.discogsId ∉ tr := fun hc => hdisj hmemq hc
  have hnotProc : it.discogsId ∉ q.processed := fun hc =>
    hnotTr (hproc.mem_iff.mp hc)
  refine ⟨hseen ▸ hnd, ?_, ?_⟩
  · rw [hseen]
    have h1 : (q.queue.map ArtistQueueItem.discogsId).Perm
        (it.discogsId :: q'.queue.map ArtistQueueItem.discogsId) := by
      have := hqperm.map ArtistQueueItem.discogsId
      simpa using this
    have h2 : q.seen.Perm
        ((q'.queue.map ArtistQueueItem.discogsId ++ tr) ++ [it.discogsId]) :=
      (hperm.trans (h1.append_right tr)).trans
        (@List.perm_append_comm _ [it.discogsId]
          (q'.queue.map ArtistQueueItem.discogsId ++ tr))
    rw [← List.append_assoc]
    exact h2
  · rw [hprocEq, if_neg hnotProc]
    exact (hproc.cons it.discogsId).trans
      (@List.perm_append_comm _ [it.discogsId] tr)

theorem queueInv_runOps : ∀ (ops : List QueueOp) (q : SmartTraversalQueue)
    (tr : List DiscogsId), QueueInv q tr →
    QueueInv (runQueueOps ops q tr).1 (runQueueOps ops q tr).2
  | [], _, _, h => h
  | .offer item :: rest, q, tr, h =>
    queueInv_runOps rest _ tr (queueInv_add h item)
  | .pullNext :: rest, q, tr, h => by
    unfold runQueueOps
    rcases hg : q.getNext with _ | p
    · exact queueInv_runOps rest q tr h
    · exact queueInv_runOps rest p.2 (tr ++ [p.1.discogsId]) (queueInv_getNext h hg)

theorem add_seen_length (q : SmartTraversalQueue) (item : ArtistQueueItem) :
    (q.add item).1.seen.length ≤ q.seen.length + 1 := by
  unfold SmartTraversalQueue.add
  split
  · exact Nat.le_succ _
  · split
    · exact Nat.le_succ _
    · simp

theorem runOps_seen_length : ∀ (ops : List QueueOp) (q : SmartTraversalQueue)
    (tr : List DiscogsId),
    (runQueueOps ops q tr).1.seen.length ≤ q.seen.length + countOffers ops
  | [], q, tr => Nat.le_refl _
  | .offer item :: rest, q, tr => by
    have h1 := runOps_seen_length rest (q.add item).1 tr
    have h2 := add_seen_length q item
    calc (runQueueOps (.offer item :: rest) q tr).1.seen.length
        ≤ (q.add item).1.seen.length + countOffers rest := h1
      _ ≤ (q.seen.length + 1) + countOffers rest := Nat.add_le_add_right h2 _
      _ = q.seen.length + countOffers (.offer item :: rest) := by
          simp [countOffers, Nat.add_assoc, Nat.add_comm 1]
  | .pullNext :: rest, q, tr => by
    unfold runQueueOps
    rcases hg : q.getNext with _ | p
    · exact runOps_seen_length rest q tr
    · have hseen := (getNext_eq_some hg).2.1
      have h1 := runOps_seen_length rest p.2 (tr ++ [p.1.discogsId])
      rw [hseen] at h1
      exact h1

/-- C2 (counterexample): the claim's budget formula and
`SmartTraversalQueue.can_accept_more` disagree when a max queue size of `0` is
configured: with `max_artists = 5`, an empty queue, nothing processed and
`max_queue_size = 0`, the spec formula gives `0` but the code returns `5`,
because Python truthiness treats the configured `0` as "no limit". -/
theorem canAcceptMore_maxsize_zero_counterexample :
    specAdmissionBudget 5 (some 0) 0 0 = 0 ∧
    (SmartTraversalQueue.init .bfs (some 0)).canAcceptMore
      { maxArtists := 5, maxQueueSize := some 0 } 0 = 5 := by
  constructor <;> decide

/-- C2 (amended): for every queue state and configuration,
`can_accept_more` equals `min(max_artists − artists_processed − pending,
max_queue_size − pending)` floored at zero, where the `max_queue_size` term is
treated as unbounded whenever the queue's max size is falsy (`None` **or**
`0`), per Python truthiness. -/
theorem canAcceptMore_eq_specBudget (q : SmartTraversalQueue)
    (config : TraversalConfig) (artistsProcessed : Nat) :
    q.canAcceptMore config artistsProcessed =
      specAdmissionBudgetTruthy config.maxArtists q.maxSize artistsProcessed
        q.queue.length := by
  unfold SmartTraversalQueue.canAcceptMore specAdmissionBudgetTruthy
  rcases q.maxSize with _ | m
  · rfl
  · by_cases hm : m = 0 <;> simp [hm]

/-- C4: `should_terminate` evaluates its reasons in the fixed priority order
max-artists-reached, queue-empty, time-limit-exceeded,
error-threshold-exceeded, and returns the first condition that holds (and
`none` when none holds). In particular, when `artists_processed ≥ max_artists`
and the queue is simultaneously empty the reason is max-artists-reached, and
when the queue is empty before `max_artists` is reached the reason is
queue-empty regardless of the time and error conditions. -/
theorem shouldTerminate_priority_order (q : SmartTraversalQueue)
    (config : TraversalConfig) (p e : Nat) (t : ℚ) :
    (config.maxArtists ≤ p →
      q.shouldTerminate config p e t = some .maxArtistsReached) ∧
    (p < config.maxArtists → q.queue = [] →
      q.shouldTerminate config p e t = some .queueEmpty) ∧
    (p < config.maxArtists → q.queue ≠ [] →
      timeLimitHit config.timeLimitSeconds t = true →
      q.shouldTerminate config p e t = some .timeLimitExceeded) ∧
    (p < config.maxArtists → q.queue ≠ [] →
      timeLimitHit config.timeLimitSeconds t = false →
      errorThresholdHit config.errorThreshold e = true →
      q.shouldTerminate config p e t = some .errorThresholdExceeded) ∧
    (p < config.maxArtists → q.queue ≠ [] →
      timeLimitHit config.timeLimitSeconds t = false →
      errorThresholdHit config.errorThreshold e = false →
      q.shouldTerminate config p e t = none) := by
  refine ⟨?_, ?_, ?_, ?_, ?_⟩
  · intro h
    simp [SmartTraversalQueue.shouldTerminate, h]
  · intro hp hq
    simp [SmartTraversalQueue.shouldTerminate, SmartTraversalQueue.isEmpty, hq,
      Nat.not_le.mpr hp]
  · intro hp hq ht
    simp [SmartTraversalQueue.shouldTerminate, SmartTraversalQueue.isEmpty,
      List.length_eq_zero, hq, Nat.not_le.mpr hp, ht]
  · intro hp hq ht he
    simp [SmartTraversalQueue.shouldTerminate, SmartTraversalQueue.isEmpty,
      List.length_eq_zero, hq, Nat.not_le.mpr hp, ht, he]
  · intro hp hq ht he
    simp [SmartTraversalQueue.shouldTerminate, SmartTraversalQueue.isEmpty,
      List.length_eq_zero, hq, Nat.not_le.mpr hp, ht, he]

/-- C4 (witness): the priority-order theorem applied at concrete inputs — with
`max_artists = 3`, 3 artists processed and an empty queue the reason is
max-artists-reached, and with 1 processed and an empty queue it is
queue-empty. -/
theorem shouldTerminate_priority_order_witness :
    (SmartTraversalQueue.init .bfs none).shouldTerminate
      { maxArtists := 3 } 3 0 0 = some .maxArtistsReached ∧
    (SmartTraversalQueue.init .bfs none).shouldTerminate
      { maxArtists := 3 } 1 0 0 = some .queueEmpty := by
  constructor
  · exact (shouldTerminate_priority_order (SmartTraversalQueue.init .bfs none)
      { maxArtists := 3 } 3 0 0).1 (by decide)
  · exact (shouldTerminate_priority_order (SmartTraversalQueue.init .bfs none)
      { maxArtists := 3 } 1 0 0).2.1 (by decide) rfl

/-- C6: for every sequence of `add`/`get_next` operations on a fresh
`SmartTraversalQueue` (any strategy, any max size), the final counts satisfy
`processed_count ≤ total_seen_count ≤ total_offered_count`, and the trace of
ids returned by `get_next` has no duplicates: no artist id is ever popped
twice. -/
theorem queue_counts_monotone_no_double_pop (strategy : QueueStrategy)
    (maxSize : Option Nat) (ops : List QueueOp) :
    (runQueueOps ops (SmartTraversalQueue.init strategy maxSize) []).1.processed.length ≤
      (runQueueOps ops (SmartTraversalQueue.init strategy maxSize) []).1.seen.length ∧
    (runQueueOps ops (SmartTraversalQueue.init strategy maxSize) []).1.seen.length ≤
      countOffers ops ∧
    (runQueueOps ops (SmartTraversalQueue.init strategy maxSize) []).2.Nodup := by
  have hinv := queueInv_runOps ops (SmartTraversalQueue.init strategy maxSize) []
    (queueInv_init strategy maxSize)
  obtain ⟨hnd, hperm, hproc⟩ := hinv
  refine ⟨?_, ?_, ?_⟩
  · rw [hproc.length_eq, hperm.length_eq, List.length_append]
    exact Nat.le_add_left _ _
  · have := runOps_seen_length ops (SmartTraversalQueue.init strategy maxSize) []
    simpa [SmartTraversalQueue.init] using this
  · exact ((hperm.nodup hnd).of_append_right)

/-- C10: a configured `error_threshold` of `0` is falsy in Python, so
`should_terminate` can never report the error-threshold-exceeded reason, no
matter how many errors have accumulated. -/
theorem errorThreshold_zero_never_fires (q : SmartTraversalQueue)
    (config : TraversalConfig) (p e : Nat) (t : ℚ)
    (h : config.errorThreshold = some 0) :
    q.shouldTerminate config p e t ≠ some .errorThresholdExceeded := by
  have hhit : errorThresholdHit config.errorThreshold e = false := by
    rw [h]; simp [errorThresholdHit]
  unfold SmartTraversalQueue.shouldTerminate
  split
  · simp
  · split
    · simp
    · split
      · simp
      · rw [hhit]
        simp

/-- C10 (witness): the theorem applied at a concrete state with 1000
accumulated errors and `error_threshold = 0`. -/
theorem errorThreshold_zero_never_fires_witness :
    (SmartTraversalQueue.init .bfs none).shouldTerminate
      { errorThreshold := some 0 } 0 1000 0 ≠ some .errorThresholdExceeded :=
  errorThreshold_zero_never_fires (SmartTraversalQueue.init .bfs none)
    { errorThreshold := some 0 } 0 1000 0 rfl

/-! ## The queue-based traversal engine (`QueueBasedTraversalManager`)

The engine's interactions with the outside (artist resolution, release
fetching, extraction, the wall clock) are supplied by a `TraversalWorld`.
A releases collection is either a plain iterable of releases (each release
abstracted to the list of collaborator ids that
`ReleaseProcessor.extract_artists_from_release` returns for it, in iteration
order of the returned set) or a paginated collection of pages; boolean flags
mark the points where iterating the lazy collection raises. -/

/-- A releases collection as `_process_releases_with_queue` consumes it.
`plain rs raised`: a non-paginated iterable yielding the releases `rs` and
then, if `raised`, raising on the next pull. `paged pages`: each page is its
list of releases paired with a flag saying whether fetching/iterating that
page raised (caught per page, counted as one error). -/
inductive ReleasesObject where
  | plain (releases : List (List DiscogsId)) (raised : Bool)
  | paged (pages : List (List (List DiscogsId) × Bool))
deriving Repr

/-- What happens when the engine processes one popped artist id:
`raised` — `get_or_create_artist` raised (e.g. a DB error escaping it);
`unresolved` — it returned `None`;
`resolved rel` — it returned a record, after which `fetch_artist_releases`
returned `rel` (`none` models a failed/`None` release fetch). -/
inductive ResolutionOutcome where
  | raised
  | unresolved
  | resolved (releases : Option ReleasesObject)
deriving Repr

/-- The engine's environment: a per-artist outcome and the wall-clock elapsed
time observed at each main-loop iteration. -/
structure TraversalWorld where
  resolve : DiscogsId → ResolutionOutcome
  elapsed : Nat → ℚ

/-- `TraversalStatistics` (the counters the traversal logic writes). -/
structure TraversalStatistics where
  artistsProcessed : Nat := 0
  artistsDiscovered : Nat := 0
  releasesProcessed : Nat := 0
  errors : Nat := 0
  queuePeakSize : Nat := 0
  totalQueueAdditions : Nat := 0
  terminationReason : Option TerminationReason := none
  processedArtistIds : List DiscogsId := []
deriving DecidableEq, Repr

/-- Engine state: the queue, the statistics, the iteration counter (feeding
the wall-clock input), a monotone tick for `discovery_time`, and a ghost
trace recording the depth of every popped item in pop order. -/
structure EngineState where
  queue : SmartTraversalQueue
  stats : TraversalStatistics
  iteration : Nat := 0
  clock : Nat := 0
  popDepthTrace : List Nat := []
deriving Repr

/-- Construct an `ArtistQueueItem` for a discovered collaborator and offer it
to the queue (depth `parent + 1`, priority `0.5`), bumping the discovered
counter on success; mirrors the add sites of `_process_releases_with_queue`. -/
def offerChild (s : EngineState) (parentId childId : DiscogsId) (childDepth : Nat) :
    EngineState × Bool :=
  let item : ArtistQueueItem :=
    { discogsId := childId, depth := childDepth, priorityScore := (1 : ℚ) / 2,
      parentId := some parentId, discoveryTime := s.clock }
  let r := s.queue.add item
  if r.2 then
    ({ s with
        queue := r.1
        clock := s.clock + 1
        stats := { s.stats with artistsDiscovered := s.stats.artistsDiscovered + 1 } },
     true)
  else
    ({ s with queue := r.1, clock := s.clock + 1 }, false)

/-- The inner `for artist_id in artists` loop: offer each extracted id while
`added_to_queue < capacity`, counting successful adds. -/
def addExtractedArtists (capacity : Nat) (parentId : DiscogsId) (childDepth : Nat) :
    List DiscogsId → EngineState → Nat → EngineState × Nat
  | [], s, added => (s, added)
  | a :: rest, s, added =>
    if capacity ≤ added then (s, added)
    else
      let r := offerChild s parentId a childDepth
      addExtractedArtists capacity parentId childDepth rest r.1
        (if r.2 then added + 1 else added)

/-- Result of a `for release in ...` loop: final state, adds so far, local
releases-processed count, and whether the loop exited via the capacity break
(in which case the iterable is not pulled again). -/
structure ReleaseLoopResult where
  state : EngineState
  added : Nat
  relProcessed : Nat
  broke : Bool
deriving Repr

/-- One `for release in ...` loop (used for the non-paginated collection and
for the releases of one page): before each release, break if
`added_to_queue ≥ capacity`; otherwise count the release and offer its
extracted collaborators. -/
def processReleaseList (capacity : Nat) (parentId : DiscogsId) (childDepth : Nat) :
    List (List DiscogsId) → EngineState → Nat → Nat → ReleaseLoopResult
  | [], s, added, rp => ⟨s, added, rp, false⟩
  | ids :: rest, s, added, rp =>
    if capacity ≤ added then ⟨s, added, rp, true⟩
    else
      let r := addExtractedArtists capacity parentId childDepth ids s added
      processReleaseList capacity parentId childDepth rest r.1 r.2 (rp + 1)

/-- The paginated branch: per page, break when at capacity, else process the
page's releases; a raising page is caught and counted as one error in the
statistics (line `self.statistics.errors += 1`), unless the inner loop broke
first (then the raise point is never reached). -/
def processPages (capacity : Nat) (parentId : DiscogsId) (childDepth : Nat) :
    List (List (List DiscogsId) × Bool) → EngineState → Nat → Nat →
      EngineState × Nat × Nat
  | [], s, added, rp => (s, added, rp)
  | page :: rest, s, added, rp =>
    if capacity ≤ added then (s, added, rp)
    else
      let r := processReleaseList capacity parentId childDepth page.1 s added rp
      let s' :=
        if page.2 && !r.broke then
          { r.state with stats :=
              { r.state.stats with errors := r.state.stats.errors + 1 } }
        else r.state
      processPages capacity parentId childDepth rest s' r.added r.relProcessed

/-- Truthiness check `self.config.max_depth and parent_item.depth >= max_depth`. -/
def maxDepthReached (maxDepth : Option Nat) (parentDepth : Nat) : Bool :=
  match maxDepth with
  | none => false
  | some d => decide (d ≠ 0) && decide (d ≤ parentDepth)

/-- `_process_releases_with_queue`: depth check, then the paginated or plain
release loop; the local releases-processed count is committed to the
statistics at the end, which an escaping exception (second component `true`)
skips. -/
def processReleasesWithQueue (config : TraversalConfig) (s : EngineState)
    (parentItem : ArtistQueueItem) (capacity : Nat) (obj : ReleasesObject) :
    EngineState × Bool :=
  if maxDepthReached config.maxDepth parentItem.depth then (s, false)
  else
    match obj with
    | .plain rs raised =>
      let r := processReleaseList capacity parentItem.discogsId
        (parentItem.depth + 1) rs s 0 0
      if raised && !r.broke then (r.state, true)
      else
        ({ r.state with stats := { r.state.stats with
            releasesProcessed := r.state.stats.releasesProcessed + r.relProcessed } },
         false)
    | .paged pages =>
      let r := processPages capacity parentItem.discogsId
        (parentItem.depth + 1) pages s 0 0
      ({ r.1 with stats := { r.1.stats with
          releasesProcessed := r.1.stats.releasesProcessed + r.2.2 } },
       false)

/-- `_process_artist_from_queue` for one popped item, given the world's
outcome for its id. Returns the new state and whether an exception escaped
(to be caught by `traverse`). A `None` resolution returns with **no** change
to the traversal statistics; a successful resolution bumps
`artists_processed`, records the id, and (unless the release fetch failed or
the collection is empty/falsy) computes the admission capacity and processes
the releases. -/
def processArtistFromQueue (config : TraversalConfig) (s : EngineState)
    (item : ArtistQueueItem) (outcome : ResolutionOutcome) : EngineState × Bool :=
  match outcome with
  | .raised => (s, true)
  | .unresolved => (s, false)
  | .resolved rel =>
    let s1 := { s with stats := { s.stats with
        artistsProcessed := s.stats.artistsProcessed + 1,
        processedArtistIds := s.stats.processedArtistIds ++ [item.discogsId] } }
    match rel with
    | none => (s1, false)
    | some (.plain [] _) => (s1, false)
    | some obj =>
      let capacity := (s1.queue.canAcceptMore config s1.stats.artistsProcessed).toNat
      processReleasesWithQueue config s1 item capacity obj

/-- The `except Exception` handler of `traverse`: if processing raised, count
one error and terminate with the error-threshold reason when the (truthy)
threshold is now met; otherwise continue. Second component: stop the loop. -/
def handleProcessResult (config : TraversalConfig) (r : EngineState × Bool) :
    EngineState × Bool :=
  if r.2 then
    let s2 := { r.1 with stats := { r.1.stats with errors := r.1.stats.errors + 1 } }
    if errorThresholdHit config.errorThreshold s2.stats.errors then
      ({ s2 with stats := { s2.stats with
          terminationReason := some .errorThresholdExceeded } }, true)
    else (s2, false)
  else (r.1, false)

/-- The main loop of `traverse`, fuel-indexed (the claims proved about it are
safety properties, so exhausting fuel simply returns the current state):
check termination, pop, process, handle exceptions, repeat. -/
def traverseLoop (config : TraversalConfig) (w : TraversalWorld) :
    Nat → EngineState → EngineState
  | 0, s => s
  | fuel + 1, s =>
    match s.queue.shouldTerminate config s.stats.artistsProcessed s.stats.errors
        (w.elapsed s.iteration) with
    | some reason =>
      { s with stats := { s.stats with terminationReason := some reason } }
    | none =>
      match s.queue.getNext with
      | none =>
        { s with stats := { s.stats with terminationReason := some .queueEmpty } }
      | some p =>
        let s1 := { s with
          queue := p.2
          popDepthTrace := s.popDepthTrace ++ [p.1.depth] }
        let r := handleProcessResult config
          (processArtistFromQueue config s1 p.1 (w.resolve p.1.discogsId))
        if r.2 then r.1
        else traverseLoop config w fuel { r.1 with iteration := r.1.iteration + 1 }

/-- `QueueBasedTraversalManager.traverse`: seed the queue with the starting
artist at depth 0 and priority 1, run the loop, and finalize the
queue-derived statistics. -/
def traverse (config : TraversalConfig) (w : TraversalWorld) (fuel : Nat)
    (startingArtistId : DiscogsId) : EngineState :=
  let q0 := SmartTraversalQueue.init config.queueStrategy config.maxQueueSize
  let startItem : ArtistQueueItem :=
    { discogsId := startingArtistId, depth := 0, priorityScore := 1,
      parentId := none, discoveryTime := 0 }
  let s0 : EngineState := { queue := (q0.add startItem).1, stats := {}, clock := 1 }
  let sEnd := traverseLoop config w fuel s0
  { sEnd with stats := { sEnd.stats with
      queuePeakSize := sEnd.queue.peakSize,
      totalQueueAdditions := sEnd.queue.totalAdditions } }

/-! ### C1: the processed count never exceeds `max_artists` -/

theorem offerChild_artistsProcessed (s : EngineState) (p c : DiscogsId) (d : Nat) :
    ((offerChild s p c d).1).stats.artistsProcessed = s.stats.artistsProcessed := by
  unfold offerChild
  dsimp only
  split <;> rfl

theorem addExtractedArtists_artistsProcessed (cap : Nat) (p : DiscogsId) (d : Nat) :
    ∀ (ids : List DiscogsId) (s : EngineState) (added : Nat),
    ((addExtractedArtists cap p d ids s added).1).stats.artistsProcessed =
      s.stats.artistsProcessed
  | [], _, _ => rfl
  | a :: rest, s, added => by
    unfold addExtractedArtists
    split
    · rfl
    · dsimp only
      rw [addExtractedArtists_artistsProcessed cap p d rest,
        offerChild_artistsProcessed]

theorem processReleaseList_artistsProcessed (cap : Nat) (p : DiscogsId) (d : Nat) :
    ∀ (rs : List (List DiscogsId)) (s : EngineState) (added rp : Nat),
    ((processReleaseList cap p d rs s added rp).state).stats.artistsProcessed =
      s.stats.artistsProcessed
  | [], _, _, _ => rfl
  | ids :: rest, s, added, rp => by
    unfold processReleaseList
    split
    · rfl
    · dsimp only
      rw [processReleaseList_artistsProcessed cap p d rest,
        addExtractedArtists_artistsProcessed]

theorem processPages_artistsProcessed (cap : Nat) (p : DiscogsId) (d : Nat) :
    ∀ (pages : List (List (List DiscogsId) × Bool)) (s : EngineState) (added rp : Nat),
    ((processPages cap p d pages s added rp).1).stats.artistsProcessed =
      s.stats.artistsProcessed
  | [], _, _, _ => rfl
  | page :: rest, s, added, rp => by
    unfold processPages
    split
    · rfl
    · dsimp only
      rw [processPages_artistsProcessed cap p d rest]
      split
      · dsimp only
        rw [processReleaseList_artistsProcessed]
      · rw [processReleaseList_artistsProcessed]

theorem processReleasesWithQueue_artistsProcessed (config : TraversalConfig)
    (s : EngineState) (item : ArtistQueueItem) (cap : Nat) (obj : ReleasesObject) :
    ((processReleasesWithQueue config s item cap obj).1).stats.artistsProcessed =
      s.stats.artistsProcessed := by
  unfold processReleasesWithQueue
  split
  · rfl
  · rcases obj with ⟨rs, raised⟩ | pages
    · dsimp only
      split
      · rw [processReleaseList_artistsProcessed]
      · dsimp only
        rw [processReleaseList_artistsProcessed]
    · dsimp only
      rw [processPages_artistsProcessed]

theorem processArtistFromQueue_processed_le (config : TraversalConfig)
    (s : EngineState) (item : ArtistQueueItem) (outcome : ResolutionOutcome) :
    ((processArtistFromQueue config s item outcome).1).stats.artistsProcessed ≤
      s.stats.artistsProcessed + 1 := by
  rcases outcome with _ | _ | rel
  · exact Nat.le_succ _
  · exact Nat.le_succ _
  · rcases rel with _ | obj
    · exact Nat.le_refl _
    · rcases obj with ⟨rs, raised⟩ | pages
      · rcases rs with _ | ⟨ids, rest⟩
        · exact Nat.le_refl _
        · simp only [processArtistFromQueue]
          rw [processReleasesWithQueue_artistsProcessed]
      · simp only [processArtistFromQueue]
        rw [processReleasesWithQueue_artistsProcessed]

theorem handleProcessResult_artistsProcessed (config : TraversalConfig)
    (r : EngineState × Bool) :
    ((handleProcessResult config r).1).stats.artistsProcessed =
      (r.1).stats.artistsProcessed := by
  unfold handleProcessResult
  split
  · dsimp only
    split <;> rfl
  · rfl

theorem shouldTerminate_none_lt {q : SmartTraversalQueue} {config : TraversalConfig}
    {p e : Nat} {t : ℚ} (h : q.shouldTerminate config p e t = none) :
    p < config.maxArtists := by
  unfold SmartTraversalQueue.shouldTerminate at h
  split at h
  · simp at h
  · rename_i hle
    exact Nat.lt_of_not_le hle

theorem traverseLoop_processed_le (config : TraversalConfig) (w : TraversalWorld) :
    ∀ (fuel : Nat) (s : EngineState),
    s.stats.artistsProcessed ≤ config.maxArtists →
    (traverseLoop config w fuel s).stats.artistsProcessed ≤ config.maxArtists
  | 0, _, h => h
  | fuel + 1, s, h => by
    unfold traverseLoop
    rcases ht : s.queue.shouldTerminate config s.stats.artistsProcessed s.stats.errors
        (w.elapsed s.iteration) with _ | reason
    · have hlt := shouldTerminate_none_lt ht
      rcases hg : s.queue.getNext with _ | p
      · exact h
      · dsimp only
        have hb : ∀ o, ((handleProcessResult config
            (processArtistFromQueue config
              { s with
                queue := p.2
                popDepthTrace := s.popDepthTrace ++ [p.1.depth] } p.1 o)).1).stats.artistsProcessed ≤
            config.maxArtists := by
          intro o
          rw [handleProcessResult_artistsProcessed]
          exact le_trans (processArtistFromQueue_processed_le config _ p.1 o) hlt
        split
        · exact hb _
        · exact traverseLoop_processed_le config w fuel _ (hb _)
    · exact h

/-- C1: for every configuration, world and fuel, a full `traverse` run ends
with `artists_processed ≤ max_artists`: the first termination check fires
before a processing step could push the counter past the limit, and each
iteration increments it by at most one, however large the fan-out of
discovered collaborators is. -/
theorem traverse_artistsProcessed_le_maxArtists (config : TraversalConfig)
    (w : TraversalWorld) (fuel : Nat) (seed : DiscogsId) :
    (traverse config w fuel seed).stats.artistsProcessed ≤ config.maxArtists := by
  unfold traverse
  dsimp only
  exact traverseLoop_processed_le config w fuel _ (Nat.zero_le _)

/-! ### C5: FIFO (BFS) pops depths in non-decreasing order -/

/-- Invariant after popping an item of depth `D` under the BFS strategy: the
pop trace is sorted and bounded by `D`, and every pending item's depth lies
in the window `[D, D+1]`, with the pending depths sorted. -/
def PostPopInv (D : Nat) (tr : List Nat) (q : List ArtistQueueItem) : Prop :=
  tr.Sorted (· ≤ ·) ∧
  (q.map ArtistQueueItem.depth).Sorted (· ≤ ·) ∧
  (∀ y ∈ tr, y ≤ D) ∧
  (∀ x ∈ q, D ≤ x.depth ∧ x.depth ≤ D + 1)

theorem sortedAppendLe {l₁ l₂ : List Nat} (h₁ : l₁.Sorted (· ≤ ·))
    (h₂ : l₂.Sorted (· ≤ ·)) (h : ∀ a ∈ l₁, ∀ b ∈ l₂, a ≤ b) :
    (l₁ ++ l₂).Sorted (· ≤ ·) :=
  List.pairwise_append.mpr ⟨h₁, h₂, h⟩

theorem postPopInv_append {D : Nat} {tr : List Nat} {q : List ArtistQueueItem}
    (h : PostPopInv D tr q) (c : ArtistQueueItem) (hc : c.depth = D + 1) :
    PostPopInv D tr (q ++ [c]) := by
  obtain ⟨h1, h2, h3, h4⟩ := h
  refine ⟨h1, ?_, h3, ?_⟩
  · rw [List.map_append]
    refine sortedAppendLe h2 (List.sorted_singleton _) ?_
    intro a ha b hb
    simp only [List.map_cons, List.map_nil, List.mem_singleton] at hb
    subst hb
    obtain ⟨x, hx, hax⟩ := List.mem_map.mp ha
    rw [hc, ← hax]
    exact (h4 x hx).2
  · intro x hx
    rcases List.mem_append.mp hx with hx | hx
    · exact h4 x hx
    · rw [List.mem_singleton] at hx
      subst hx
      exact ⟨hc ▸ Nat.le_succ_of_le (Nat.le_refl D), hc ▸ Nat.le_refl _⟩

theorem postPopInv_pop {D : Nat} {tr : List Nat} {x : ArtistQueueItem}
    {xs : List ArtistQueueItem} (h : PostPopInv D tr (x :: xs)) :
    PostPopInv x.depth (tr ++ [x.depth]) xs := by
  obtain ⟨h1, h2, h3, h4⟩ := h
  have hxD := h4 x (List.mem_cons_self x xs)
  rw [List.map_cons] at h2
  refine ⟨?_, h2.of_cons, ?_, ?_⟩
  · refine sortedAppendLe h1 (List.sorted_singleton _) ?_
    intro a ha b hb
    rw [List.mem_singleton] at hb
    subst hb
    exact le_trans (h3 a ha) hxD.1
  · intro y hy
    rcases List.mem_append.mp hy with hy | hy
    · exact le_trans (h3 y hy) hxD.1
    · rw [List.mem_singleton] at hy
      subst hy
      exact Nat.le_refl _
  · intro z hz
    refine ⟨?_, ?_⟩
    · exact List.rel_of_sorted_cons h2 z.depth (List.mem_map_of_mem _ hz)
    · exact le_trans (h4 z (List.mem_cons_of_mem x hz)).2
        (Nat.succ_le_succ hxD.1)

theorem add_strategy (q : SmartTraversalQueue) (item : ArtistQueueItem) :
    (q.add item).1.strategy = q.strategy := by
  unfold SmartTraversalQueue.add
  split
  · rfl
  · split <;> rfl

theorem add_queue_cases (q : SmartTraversalQueue) (item : ArtistQueueItem) :
    (q.add item).1.queue = q.queue ∨ (q.add item).1.queue = q.queue ++ [item] := by
  unfold SmartTraversalQueue.add
  split
  · exact Or.inl rfl
  · split
    · exact Or.inl rfl
    · exact Or.inr rfl

/-- One processing phase between a pop and the next: preserves the queue
strategy and the pop trace, and preserves the post-pop depth invariant. -/
def PhasePreserves (D : Nat) (s s' : EngineState) : Prop :=
  s'.queue.strategy = s.queue.strategy ∧
  s'.popDepthTrace = s.popDepthTrace ∧
  (PostPopInv D s.popDepthTrace s.queue.queue →
    PostPopInv D s'.popDepthTrace s'.queue.queue)

theorem phasePreserves_refl (D : Nat) (s : EngineState) : PhasePreserves D s s :=
  ⟨rfl, rfl, id⟩

theorem phasePreserves_trans {D : Nat} {s s' s'' : EngineState}
    (h1 : PhasePreserves D s s') (h2 : PhasePreserves D s' s'') :
    PhasePreserves D s s'' :=
  ⟨h2.1.trans h1.1, h2.2.1.trans h1.2.1, fun h => h2.2.2 (h1.2.2 h)⟩

theorem phasePreserves_statsOnly (D : Nat) {s s' : EngineState}
    (hq : s'.queue = s.queue) (ht : s'.popDepthTrace = s.popDepthTrace) :
    PhasePreserves D s s' :=
  ⟨by rw [hq], ht, fun h => by rw [ht, hq]; exact h⟩

theorem offerChild_phase (D : Nat) (s : EngineState) (pid cid : DiscogsId) :
    PhasePreserves D s (offerChild s pid cid (D + 1)).1 := by
  unfold offerChild
  dsimp only
  split
  · refine ⟨add_strategy _ _, rfl, fun h => ?_⟩
    dsimp only
    rcases add_queue_cases s.queue
        { discogsId := cid, depth := D + 1, priorityScore := (1 : ℚ) / 2,
          parentId := some pid, discoveryTime := s.clock } with hc | hc
    · rw [hc]; exact h
    · rw [hc]; exact postPopInv_append h _ rfl
  · refine ⟨add_strategy _ _, rfl, fun h => ?_⟩
    dsimp only
    rcases add_queue_cases s.queue
        { discogsId := cid, depth := D + 1, priorityScore := (1 : ℚ) / 2,
          parentId := some pid, discoveryTime := s.clock } with hc | hc
    · rw [hc]; exact h
    · rw [hc]; exact postPopInv_append h _ rfl

theorem addExtractedArtists_phase (cap : Nat) (pid : DiscogsId) (D : Nat) :
    ∀ (ids : List DiscogsId) (s : EngineState) (added : Nat),
    PhasePreserves D s (addExtractedArtists cap pid (D + 1) ids s added).1
  | [], s, _ => phasePreserves_refl D s
  | a :: rest, s, added => by
    unfold addExtractedArtists
    split
    · exact phasePreserves_refl D s
    · dsimp only
      exact phasePreserves_trans (offerChild_phase D s pid a)
        (addExtractedArtists_phase cap pid D rest _ _)

theorem processReleaseList_phase (cap : Nat) (pid : DiscogsId) (D : Nat) :
    ∀ (rs : List (List DiscogsId)) (s : EngineState) (added rp : Nat),
    PhasePreserves D s (processReleaseList cap pid (D + 1) rs s added rp).state
  | [], s, _, _ => phasePreserves_refl D s
  | ids :: rest, s, added, rp => by
    unfold processReleaseList
    split
    · exact phasePreserves_refl D s
    · dsimp only
      exact phasePreserves_trans (addExtractedArtists_phase cap pid D ids s added)
        (processReleaseList_phase cap pid D rest _ _ _)

theorem processPages_phase (cap : Nat) (pid : DiscogsId) (D : Nat) :
    ∀ (pages : List (List (List DiscogsId) × Bool)) (s : EngineState) (added rp : Nat),
    PhasePreserves D s (processPages cap pid (D + 1) pages s added rp).1
  | [], s, _, _ => phasePreserves_refl D s
  | page :: rest, s, added, rp => by
    unfold processPages
    split
    · exact phasePreserves_refl D s
    · dsimp only
      refine phasePreserves_trans (processReleaseList_phase cap pid D page.1 s added rp)
        ?_
      split
      · exact phasePreserves_trans (phasePreserves_statsOnly D rfl rfl)
          (processPages_phase cap pid D rest _ _ _)
      · exact processPages_phase cap pid D rest _ _ _

theorem processReleasesWithQueue_phase (config : TraversalConfig) (s : EngineState)
    (item : ArtistQueueItem) (cap : Nat) (obj : ReleasesObject) :
    PhasePreserves item.depth s (processReleasesWithQueue config s item cap obj).1 := by
  unfold processReleasesWithQueue
  split
  · exact phasePreserves_refl _ s
  · rcases obj with ⟨rs, raised⟩ | pages
    · dsimp only
      split
      · exact processReleaseList_phase cap item.discogsId item.depth rs s 0 0
      · exact phasePreserves_trans
          (processReleaseList_phase cap item.discogsId item.depth rs s 0 0)
          (phasePreserves_statsOnly _ rfl rfl)
    · dsimp only
      exact phasePreserves_trans
        (processPages_phase cap item.discogsId item.depth pages s 0 0)
        (phasePreserves_statsOnly _ rfl rfl)

theorem processArtistFromQueue_phase (config : TraversalConfig) (s : EngineState)
    (item : ArtistQueueItem) (outcome : ResolutionOutcome) :
    PhasePreserves item.depth s (processArtistFromQueue config s item outcome).1 := by
  rcases outcome with _ | _ | rel
  · exact phasePreserves_refl _ s
  · exact phasePreserves_refl _ s
  · rcases rel with _ | obj
    · exact phasePreserves_statsOnly _ rfl rfl
    · rcases obj with ⟨rs, raised⟩ | pages
      · rcases rs with _ | ⟨ids, rest⟩
        · exact phasePreserves_statsOnly _ rfl rfl
        · simp only [processArtistFromQueue]
          exact phasePreserves_trans (phasePreserves_statsOnly _ rfl rfl)
            (processReleasesWithQueue_phase config _ item _ _)
      · simp only [processArtistFromQueue]
        exact phasePreserves_trans (phasePreserves_statsOnly _ rfl rfl)
          (processReleasesWithQueue_phase config _ item _ _)

theorem handleProcessResult_phase (D : Nat) (config : TraversalConfig)
    (r : EngineState × Bool) :
    PhasePreserves D r.1 (handleProcessResult config r).1 := by
  unfold handleProcessResult
  split
  · dsimp only
    split
    · exact phasePreserves_statsOnly D rfl rfl
    · exact phasePreserves_statsOnly D rfl rfl
  · exact phasePreserves_refl D r.1

/-- A successful `get_next` under the BFS strategy pops the queue front. -/
theorem getNext_bfs {q q' : SmartTraversalQueue} {it : ArtistQueueItem}
    (hs : q.strategy = .bfs) (h : q.getNext = some (it, q')) :
    q.queue = it :: q'.queue ∧ q'.strategy = .bfs := by
  rcases hq : q.queue with _ | ⟨x, xs⟩
  · simp [SmartTraversalQueue.getNext, hq] at h
  · simp only [SmartTraversalQueue.getNext, hq, hs, Option.some.injEq,
      Prod.mk.injEq] at h
    obtain ⟨h1, h2⟩ := h
    subst h1; subst h2
    exact ⟨rfl, rfl⟩

theorem traverseLoop_bfs_sorted (config : TraversalConfig) (w : TraversalWorld) :
    ∀ (fuel : Nat) (s : EngineState), s.queue.strategy = .bfs →
    (∃ D, PostPopInv D s.popDepthTrace s.queue.queue) →
    ((traverseLoop config w fuel s).popDepthTrace).Sorted (· ≤ ·)
  | 0, _, _, ⟨_, hinv⟩ => hinv.1
  | fuel + 1, s, hs, ⟨D, hinv⟩ => by
    unfold traverseLoop
    rcases ht : s.queue.shouldTerminate config s.stats.artistsProcessed s.stats.errors
        (w.elapsed s.iteration) with _ | reason
    · rcases hg : s.queue.getNext with _ | p
      · exact hinv.1
      · dsimp only
        obtain ⟨hqe, hs'⟩ := getNext_bfs hs hg
        have hpop : PostPopInv p.1.depth (s.popDepthTrace ++ [p.1.depth]) p.2.queue := by
          rw [hqe] at hinv
          exact postPopInv_pop hinv
        have hphase := phasePreserves_trans
          (processArtistFromQueue_phase config
            { s with
              queue := p.2
              popDepthTrace := s.popDepthTrace ++ [p.1.depth] } p.1
            (w.resolve p.1.discogsId))
          (handleProcessResult_phase p.1.depth config _)
        obtain ⟨hstr, htr, hkeep⟩ := hphase
        have hinv' := hkeep hpop
        split
        · exact hinv'.1
        · refine traverseLoop_bfs_sorted config w fuel _ ?_ ?_
          · exact hstr.trans hs'
          · exact ⟨p.1.depth, hinv'⟩
    · exact hinv.1

/-- C5: in every run of `traverse` with the FIFO (BFS) strategy, the sequence
of popped depths is non-decreasing: every item at depth `d` is popped before
any item offered at depth `d + 1` is popped. -/
theorem traverse_bfs_pop_depths_sorted (config : TraversalConfig)
    (w : TraversalWorld) (fuel : Nat) (seed : DiscogsId)
    (hs : config.queueStrategy = .bfs) :
    ((traverse config w fuel seed).popDepthTrace).Sorted (· ≤ ·) := by
  unfold traverse
  dsimp only
  refine traverseLoop_bfs_sorted config w fuel _ ?_ ⟨0, ?_⟩
  · rw [add_strategy]
    exact hs
  · dsimp only
    rcases add_queue_cases (SmartTraversalQueue.init config.queueStrategy
        config.maxQueueSize)
        { discogsId := seed, depth := 0, priorityScore := 1,
          parentId := none, discoveryTime := 0 } with hc | hc
    · rw [hc]
      exact ⟨List.sorted_nil, List.sorted_nil, by simp, by simp [SmartTraversalQueue.init]⟩
    · rw [hc]
      refine ⟨List.sorted_nil, ?_, by simp, ?_⟩
      · simp [SmartTraversalQueue.init]
      · intro x hx
        simp [SmartTraversalQueue.init] at hx
        subst hx
        exact ⟨Nat.le_refl _, Nat.zero_le _⟩

/-- C5 (witness): the theorem applied to a concrete BFS configuration, world
and seed. -/
theorem traverse_bfs_pop_depths_sorted_witness :
    ((traverse { maxArtists := 10 }
        { resolve := fun i =>
            if i = "1" then .resolved (some (.plain [["2"], ["3"]] false))
            else .unresolved
          elapsed := fun _ => 0 } 5 "1").popDepthTrace).Sorted (· ≤ ·) :=
  traverse_bfs_pop_depths_sorted { maxArtists := 10 }
    { resolve := fun i =>
        if i = "1" then .resolved (some (.plain [["2"], ["3"]] false))
        else .unresolved
      elapsed := fun _ => 0 } 5 "1" rfl

/-! ### C8: error accounting when processing a popped artist fails -/

/-- C8 (counterexample): a run whose only artist fails to resolve
(`get_or_create_artist` returns `None`). The claim says the engine counts one
error in `TraversalStatistics`; in fact `_process_artist_from_queue` just
returns, so the run ends with `errors = 0` (and reason queue-empty). -/
theorem failed_resolution_counts_no_error :
    (traverse {} { resolve := fun _ => .unresolved, elapsed := fun _ => 0 }
        5 "1").stats.errors = 0 ∧
    (traverse {} { resolve := fun _ => .unresolved, elapsed := fun _ => 0 }
        5 "1").stats.artistsProcessed = 0 ∧
    (traverse {} { resolve := fun _ => .unresolved, elapsed := fun _ => 0 }
        5 "1").stats.terminationReason = some .queueEmpty := by
  refine ⟨?_, ?_, ?_⟩ <;> rfl

/-- C8 (amended): a `None` result from `get_or_create_artist` makes the
engine continue with the next queue item **without** touching the traversal
statistics (no error is counted there; the resolver only counts it in its own
stats); an exception while processing an artist is caught, counted as exactly
one error in `TraversalStatistics`, and the loop continues unless the (truthy)
error threshold is now met; with no threshold configured a failure never
stops the loop. -/
theorem artist_failure_handling (config : TraversalConfig) (s : EngineState)
    (item : ArtistQueueItem) :
    (handleProcessResult config (processArtistFromQueue config s item .unresolved) =
      (s, false)) ∧
    ((handleProcessResult config
        (processArtistFromQueue config s item .raised)).1.stats.errors =
      s.stats.errors + 1) ∧
    (∀ outcome : ResolutionOutcome, config.errorThreshold = none →
      (handleProcessResult config (processArtistFromQueue config s item outcome)).2 =
        false) := by
  refine ⟨rfl, ?_, ?_⟩
  · show (handleProcessResult config (s, true)).1.stats.errors = s.stats.errors + 1
    unfold handleProcessResult
    dsimp only
    cases hhit : errorThresholdHit config.errorThreshold (s.stats.errors + 1) <;>
      simp [hhit]
  · intro outcome h
    unfold handleProcessResult
    split
    · dsimp only
      rw [h]
      simp [errorThresholdHit]
    · rfl

/-- C8 (witness): the amended theorem applied to a concrete state — a failed
resolution leaves the state untouched, and with no threshold configured a
raising artist does not stop the loop. -/
theorem artist_failure_handling_witness :
    (handleProcessResult {}
      (processArtistFromQueue {}
        { queue := SmartTraversalQueue.init .bfs none, stats := {} }
        { discogsId := "1" } .unresolved) =
      ({ queue := SmartTraversalQueue.init .bfs none, stats := {} }, false)) ∧
    (handleProcessResult {}
      (processArtistFromQueue {}
        { queue := SmartTraversalQueue.init .bfs none, stats := {} }
        { discogsId := "1" } .raised)).2 = false :=
  ⟨(artist_failure_handling {}
      { queue := SmartTraversalQueue.init .bfs none, stats := {} }
      { discogsId := "1" }).1,
   (artist_failure_handling {}
      { queue := SmartTraversalQueue.init .bfs none, stats := {} }
      { discogsId := "1" }).2.2 .raised rfl⟩

/-! ## Release artist extraction (`ReleaseProcessor.extract_artists_from_release`)

A raw API artist reference may lack an `id` (then it is skipped by the
`hasattr` guard) and may lack a `name` (then `getattr` supplies `'Unknown'`).
A raw release may be a master release pointing at a main release. -/

structure RawArtist where
  id : Option DiscogsId := none
  name : Option String := none
  role : Option String := none
deriving DecidableEq, Repr

inductive RawRelease where
  | mk (releaseId : Option String) (title : Option String)
      (mainRelease : Option RawRelease)
      (artists : List RawArtist)
      (extraartists : List RawArtist)
      (trackExtraartists : List (List RawArtist))
      (credits : List RawArtist)

def RawRelease.releaseId : RawRelease → Option String
  | .mk rid _ _ _ _ _ _ => rid

def RawRelease.mainRelease : RawRelease → Option RawRelease
  | .mk _ _ mr _ _ _ _ => mr

def RawRelease.artists : RawRelease → List RawArtist
  | .mk _ _ _ a _ _ _ => a

def RawRelease.extraartists : RawRelease → List RawArtist
  | .mk _ _ _ _ ea _ _ => ea

def RawRelease.trackExtraartists : RawRelease → List (List RawArtist)
  | .mk _ _ _ _ _ te _ => te

def RawRelease.credits : RawRelease → List RawArtist
  | .mk _ _ _ _ _ _ c => c

/-- `ExtractedArtist` dataclass of `release_processor.py`. -/
structure ExtractedArtist where
  discogsId : DiscogsId
  name : String
  role : String
  creditType : Option String := none
deriving DecidableEq, Repr

/-- `getattr(artist, 'name', 'Unknown')`. -/
def artistDisplayName (a : RawArtist) : String := a.name.getD "Unknown"

/-- `_extract_main_artists`: every entry with an `id`, role `'main'`. -/
def extractMainArtists (r : RawRelease) : List ExtractedArtist :=
  r.artists.filterMap fun a =>
    a.id.map fun i => { discogsId := i, name := artistDisplayName a, role := "main" }

/-- `_extract_extra_artists`. -/
def extractExtraArtists (r : RawRelease) : List ExtractedArtist :=
  r.extraartists.filterMap fun a =>
    a.id.map fun i =>
      { discogsId := i, name := artistDisplayName a, role := "extra",
        creditType := a.role }

/-- `_extract_credit_artists`: track-level extra artists, then release-level
credits. -/
def extractCreditArtists (r : RawRelease) : List ExtractedArtist :=
  (r.trackExtraartists.flatMap fun track =>
    track.filterMap fun a =>
      a.id.map fun i =>
        { discogsId := i, name := artistDisplayName a, role := "credit",
          creditType := some ("Track: " ++ a.role.getD "Unknown") }) ++
  r.credits.filterMap fun a =>
    a.id.map fun i =>
      { discogsId := i, name := artistDisplayName a, role := "credit",
        creditType := a.role }

/-- The session cache of processed releases, keyed by `str(release.id)` and
holding the extracted artists' ids (computed before any exclusion). -/
abbrev ReleaseCache := List (String × List DiscogsId)

def cacheLookup (cache : ReleaseCache) (k : String) : Option (List DiscogsId) :=
  (cache.find? fun p => p.1 == k).map Prod.snd

/-- `extract_artists_from_release`: serve from the cache when possible
(subtracting the current artist), otherwise resolve a master release to its
main release, collect main + optional extra + optional credit artists, cache
them, and return the deduplicated ids minus the current artist. The result
models the returned Python set by a deduplicated list. -/
def extractArtistsFromRelease (cache : ReleaseCache) (release : RawRelease)
    (currentArtistId : DiscogsId) (includeExtras includeCredits : Bool) :
    List DiscogsId × ReleaseCache :=
  let releaseId := release.releaseId.getD ""
  match cacheLookup cache releaseId with
  | some ids => (ids.dedup.filter (· ≠ currentArtistId), cache)
  | none =>
    let actualRelease :=
      match release.mainRelease with
      | some mr => mr
      | none => release
    let extracted :=
      extractMainArtists actualRelease ++
      (if includeExtras then extractExtraArtists actualRelease else []) ++
      (if includeCredits then extractCreditArtists actualRelease else [])
    let cache' :=
      if releaseId ≠ "" then (releaseId, extracted.map ExtractedArtist.discogsId) :: cache
      else cache
    ((extracted.map ExtractedArtist.discogsId).dedup.filter (· ≠ currentArtistId),
     cache')

/-- `StepTraverser._should_process_artist` of `traverser.py`: skip the current
artist and artists named exactly `'Various'`. -/
def shouldProcessArtist (artistId : DiscogsId) (artistName : String)
    (currentArtistId : DiscogsId) : Bool :=
  if artistId = currentArtistId then false
  else if artistName = "Various" then false
  else true

/-- C3 (counterexample): a release whose primary artists are the current
artist (id "1") and an artist named the placeholder "Various" (id "7").
`extract_artists_from_release` drops the current artist but **returns** the
"Various"-named artist — no name-based placeholder filtering happens there,
contradicting the claim that extraction returns neither. -/
theorem extraction_keeps_various_counterexample :
    "7" ∈ (extractArtistsFromRelease [] (RawRelease.mk (some "r1") (some "T") none
      [{ id := some "1", name := some "Current" },
       { id := some "7", name := some "Various" }] [] [] [])
      "1" true true).1 ∧
    "1" ∉ (extractArtistsFromRelease [] (RawRelease.mk (some "r1") (some "T") none
      [{ id := some "1", name := some "Current" },
       { id := some "7", name := some "Various" }] [] [] [])
      "1" true true).1 := by
  constructor <;> decide

/-- C3 (amended): `extract_artists_from_release` excludes exactly the
`exclude_id` artist — the current artist's id is never in its result, for
primary, extra and credit artists alike — while placeholder names are not
filtered there; the name-based filter exists only in the `StepTraverser`
variant, whose `_should_process_artist` rejects precisely the current artist's
id and the exact display name "Various" (empty or unknown names pass). -/
theorem extraction_excludes_only_current :
    (∀ (cache : ReleaseCache) (release : RawRelease) (currentArtistId : DiscogsId)
      (includeExtras includeCredits : Bool),
      currentArtistId ∉
        (extractArtistsFromRelease cache release currentArtistId
          includeExtras includeCredits).1) ∧
    (∀ (artistId : DiscogsId) (artistName : String) (currentArtistId : DiscogsId),
      shouldProcessArtist artistId artistName currentArtistId = false ↔
        (artistId = currentArtistId ∨ artistName = "Various")) := by
  constructor
  · intro cache release cid ie ic
    unfold extractArtistsFromRelease
    dsimp only
    rcases h : cacheLookup cache (release.releaseId.getD "") with _ | ids
    · dsimp only
      intro hmem
      rw [List.mem_filter] at hmem
      simp at hmem
    · dsimp only
      intro hmem
      rw [List.mem_filter] at hmem
      simp at hmem
  · intro aid aname cid
    unfold shouldProcessArtist
    by_cases h1 : aid = cid <;> by_cases h2 : aname = "Various" <;> simp [h1, h2]

/-! ## Artist resolution (`ArtistProcessor.get_or_create_artist`)

The upstream fetch (`DiscogsAPIClient.fetch_artist_by_discogs_id`) and the
release drain (`fetch_all_releases`) are abstracted into an `ArtistDTO` the
world returns: `raised` models the fetch raising (caught, error counted,
`api_fetches` not yet incremented), `notFound` a falsy result. -/

structure ArtistDTO where
  id : DiscogsId
  name : String
  url : String
  releases : List String
deriving DecidableEq, Repr

inductive FetchArtistResult where
  | raised
  | notFound
  | found (dto : ArtistDTO)
deriving DecidableEq, Repr

structure ArtistWorld where
  fetchArtist : DiscogsId → FetchArtistResult

/-- A persisted/resolved artist record. -/
structure ArtistRecord where
  discogsId : DiscogsId
  name : String
  pageUrl : String
  releases : List String
deriving DecidableEq, Repr

/-- `ArtistProcessor` state: the run-scoped session cache, the database rows,
and the statistics counters the method updates. -/
structure ArtistProcessorState where
  sessionCache : List (DiscogsId × ArtistRecord) := []
  db : List (DiscogsId × ArtistRecord) := []
  apiFetches : Nat := 0
  databaseHits : Nat := 0
  foundExisting : Nat := 0
  createdNew : Nat := 0
  totalProcessed : Nat := 0
  errors : Nat := 0
deriving DecidableEq, Repr

def assocLookup (l : List (DiscogsId × ArtistRecord)) (k : DiscogsId) :
    Option ArtistRecord :=
  (l.find? fun p => p.1 == k).map Prod.snd

/-- `_fetch_and_create_artist`: fetch from the API (counting the fetch once
the call returns, the error when it raises or comes back falsy), then create
the artist with its releases in the database
(`artist_crud.create_with_releases`, get-or-create on the discogs id) and
return the created record. -/
def fetchAndCreateArtist (w : ArtistWorld) (st : ArtistProcessorState)
    (discogsId : DiscogsId) : Option ArtistRecord × ArtistProcessorState :=
  match w.fetchArtist discogsId with
  | .raised => (none, { st with errors := st.errors + 1 })
  | .notFound =>
    (none, { st with
      apiFetches := st.apiFetches + 1
      errors := st.errors + 1 })
  | .found dto =>
    let record : ArtistRecord :=
      { discogsId := dto.id, name := dto.name, pageUrl := dto.url,
        releases := dto.releases }
    let db' :=
      match assocLookup st.db discogsId with
      | some _ => st.db
      | none => (discogsId, record) :: st.db
    (some record,
     { st with
        apiFetches := st.apiFetches + 1
        db := db'
        createdNew := st.createdNew + 1
        totalProcessed := st.totalProcessed + 1 })

/-- `get_or_create_artist`: session cache, then database (counting a hit),
then fetch-and-create; a successfully resolved record is put into the
session cache, a `None` result is not. -/
def getOrCreateArtist (w : ArtistWorld) (st : ArtistProcessorState)
    (discogsId : DiscogsId) : Option ArtistRecord × ArtistProcessorState :=
  match assocLookup st.sessionCache discogsId with
  | some artist => (some artist, st)
  | none =>
    match assocLookup st.db discogsId with
    | some artist =>
      (some artist,
       { st with
          foundExisting := st.foundExisting + 1
          databaseHits := st.databaseHits + 1
          totalProcessed := st.totalProcessed + 1
          sessionCache := (discogsId, artist) :: st.sessionCache })
    | none =>
      let r := fetchAndCreateArtist w st discogsId
      match r.1 with
      | some artist =>
        (some artist,
         { r.2 with sessionCache := (discogsId, artist) :: r.2.sessionCache })
      | none => (none, r.2)

theorem assocLookup_cons_self (rest : List (DiscogsId × ArtistRecord))
    (k : DiscogsId) (a : ArtistRecord) :
    assocLookup ((k, a) :: rest) k = some a := by
  simp [assocLookup, List.find?]

/-- C7 (amended): whenever `get_or_create_artist` resolves an id to a record,
calling it again with that id returns the very same record and leaves the
processor state untouched — in particular no further upstream fetch happens;
a *failed* resolution is not cached, so it is re-fetched (see the
counterexample). -/
theorem getOrCreate_idempotent_on_success (w : ArtistWorld)
    (st : ArtistProcessorState) (discogsId : DiscogsId) (a : ArtistRecord)
    (h : (getOrCreateArtist w st discogsId).1 = some a) :
    getOrCreateArtist w (getOrCreateArtist w st discogsId).2 discogsId =
      (some a, (getOrCreateArtist w st discogsId).2) := by
  rcases hc : assocLookup st.sessionCache discogsId with _ | artist
  · rcases hdb : assocLookup st.db discogsId with _ | artist
    · rcases hr : (fetchAndCreateArtist w st discogsId).1 with _ | artist
      · have h1 : getOrCreateArtist w st discogsId =
            (none, (fetchAndCreateArtist w st discogsId).2) := by
          unfold getOrCreateArtist
          rw [hc, hdb]
          dsimp only
          rw [hr]
        rw [h1] at h
        simp at h
      · have h1 : getOrCreateArtist w st discogsId =
            (some artist,
             { (fetchAndCreateArtist w st discogsId).2 with
                sessionCache := (discogsId, artist) ::
                  (fetchAndCreateArtist w st discogsId).2.sessionCache }) := by
          unfold getOrCreateArtist
          rw [hc, hdb]
          dsimp only
          rw [hr]
        rw [h1] at h ⊢
        dsimp only at h
        rw [Option.some.injEq] at h
        subst h
        unfold getOrCreateArtist
        dsimp only
        rw [assocLookup_cons_self]
    · have h1 : getOrCreateArtist w st discogsId =
          (some artist,
           { st with
              foundExisting := st.foundExisting + 1
              databaseHits := st.databaseHits + 1
              totalProcessed := st.totalProcessed + 1
              sessionCache := (discogsId, artist) :: st.sessionCache }) := by
        unfold getOrCreateArtist
        rw [hc, hdb]
      rw [h1] at h ⊢
      dsimp only at h
      rw [Option.some.injEq] at h
      subst h
      unfold getOrCreateArtist
      dsimp only
      rw [assocLookup_cons_self]
  · have h1 : getOrCreateArtist w st discogsId = (some artist, st) := by
      unfold getOrCreateArtist
      rw [hc]
    rw [h1] at h ⊢
    dsimp only at h
    rw [Option.some.injEq] at h
    subst h
    unfold getOrCreateArtist
    dsimp only
    rw [hc]

/-- C7 (witness): the amended theorem at a concrete world — after the first
call resolves id "5" by fetching and creating it, the second call returns
the identical record with the state (and so the fetch count) unchanged. -/
theorem getOrCreate_idempotent_on_success_witness :
    getOrCreateArtist
      { fetchArtist := fun _ =>
          .found { id := "5", name := "N", url := "u", releases := [] } }
      ((getOrCreateArtist
        { fetchArtist := fun _ =>
            .found { id := "5", name := "N", url := "u", releases := [] } }
        {} "5").2) "5" =
      (some { discogsId := "5", name := "N", pageUrl := "u", releases := [] },
       (getOrCreateArtist
        { fetchArtist := fun _ =>
            .found { id := "5", name := "N", url := "u", releases := [] } }
        {} "5").2) :=
  getOrCreate_idempotent_on_success
    { fetchArtist := fun _ =>
        .found { id := "5", name := "N", url := "u", releases := [] } }
    {} "5" { discogsId := "5", name := "N", pageUrl := "u", releases := [] }
    (by decide)

/-- C7 (counterexample): for an id the upstream does not know, both calls
return `None` (the "same record"), but each call issues its own upstream
fetch — two calls make `api_fetches = 2`, not at most one, because a failed
resolution is never cached. -/
theorem getOrCreate_refetches_failures_counterexample :
    ((getOrCreateArtist { fetchArtist := fun _ => .notFound }
      ((getOrCreateArtist { fetchArtist := fun _ => .notFound }
        ({} : ArtistProcessorState) "9").2) "9").2).apiFetches = 2 := by
  decide

/-! ## The retrying API client (`DiscogsAPIClient._execute_with_retry`) -/

/-- `RetryConfig` dataclass of `api_client.py`. -/
structure RetryConfig where
  maxAttempts : Nat := 3
  initialBackoff : ℚ := 1
  backoffMultiplier : ℚ := 2
  maxBackoff : ℚ := 60
deriving DecidableEq, Repr

/-- One attempt of the wrapped client method: success, an HTTP error with a
status code (`discogs_client.exceptions.HTTPError`), or any other exception. -/
inductive AttemptResult (α : Type) where
  | success (value : α)
  | httpError (statusCode : Nat)
  | otherError
deriving DecidableEq, Repr

/-- What `_execute_with_retry` does overall: returns the value, raises
`RateLimitError`, or raises `APIError`. -/
inductive APICallResult (α : Type) where
  | ok (value : α)
  | rateLimitError
  | apiError
deriving DecidableEq, Repr

/-- `backoff = min(backoff * multiplier, max_backoff)`. -/
def nextBackoff (cfg : RetryConfig) (b : ℚ) : ℚ :=
  min (b * cfg.backoffMultiplier) cfg.maxBackoff

/-- The retry loop, by remaining attempts: on HTTP 429 sleep and retry unless
this was the last attempt (then `RateLimitError`); on any other HTTP error
raise `APIError` immediately; on a non-HTTP exception sleep and retry unless
last (then `APIError`). Returns the outcome, the number of attempts made and
the sleep durations. -/
def retryGo (cfg : RetryConfig) (f : Nat → AttemptResult α) :
    Nat → Nat → ℚ → List ℚ → APICallResult α × Nat × List ℚ
  | 0, i, _, sleeps => (.apiError, i, sleeps)
  | remaining + 1, i, backoff, sleeps =>
    match f i with
    | .success v => (.ok v, i + 1, sleeps)
    | .httpError status =>
      if status = 429 then
        if remaining = 0 then (.rateLimitError, i + 1, sleeps)
        else retryGo cfg f remaining (i + 1) (nextBackoff cfg backoff)
          (sleeps ++ [backoff])
      else (.apiError, i + 1, sleeps)
    | .otherError =>
      if remaining = 0 then (.apiError, i + 1, sleeps)
      else retryGo cfg f remaining (i + 1) (nextBackoff cfg backoff)
        (sleeps ++ [backoff])

/-- `_execute_with_retry` proper: run the attempt loop from attempt 0 with the
initial backoff. -/
def executeWithRetry (cfg : RetryConfig) (f : Nat → AttemptResult α) :
    APICallResult α × Nat × List ℚ :=
  retryGo cfg f cfg.maxAttempts 0 cfg.initialBackoff []

/-- The capped exponential backoff schedule: `n` sleeps starting at `b`, each
subsequent one `min(previous * multiplier, max_backoff)`. -/
def backoffSleeps (cfg : RetryConfig) : ℚ → Nat → List ℚ
  | _, 0 => []
  | b, n + 1 => b :: backoffSleeps cfg (nextBackoff cfg b) n

theorem retryGo_all_rate_limited (cfg : RetryConfig) {α : Type}
    (f : Nat → AttemptResult α) :
    ∀ (r i : Nat) (b : ℚ) (sleeps : List ℚ),
    (∀ k, k < r + 1 → f (i + k) = .httpError 429) →
    retryGo cfg f (r + 1) i b sleeps =
      (.rateLimitError, i + r + 1, sleeps ++ backoffSleeps cfg b r)
  | 0, i, b, sleeps, h => by
    have h0 : f i = .httpError 429 := h 0 (by omega)
    unfold retryGo
    rw [h0]
    simp [backoffSleeps]
  | m + 1, i, b, sleeps, h => by
    have h0 : f i = .httpError 429 := h 0 (by omega)
    have ih := retryGo_all_rate_limited cfg f m (i + 1) (nextBackoff cfg b)
      (sleeps ++ [b]) (fun k hk => by
        have hx := h (k + 1) (by omega)
        rwa [show i + (k + 1) = i + 1 + k by omega] at hx)
    have e1 : i + 1 + m + 1 = i + (m + 1) + 1 := by omega
    have e2 : (sleeps ++ [b]) ++ backoffSleeps cfg (nextBackoff cfg b) m =
        sleeps ++ backoffSleeps cfg b (m + 1) := by
      simp [backoffSleeps]
    unfold retryGo
    rw [h0]
    dsimp only
    rw [if_pos rfl, if_neg (Nat.succ_ne_zero m), ih, e1, e2]

/-- C9 (amended): through `_execute_with_retry`, rate-limited responses
(HTTP 429) are retried with the capped exponential backoff schedule up to the
fixed attempt cap, and exhausting the cap surfaces as `RateLimitError`; every
other HTTP error status — 5xx included, e.g. 500, as well as permanent 4xx
such as 404 — is surfaced immediately as `APIError` after a single attempt,
with no retry and no backoff sleep. -/
theorem executeWithRetry_policy (cfg : RetryConfig) {α : Type}
    (f : Nat → AttemptResult α) :
    (∀ s : Nat, f 0 = .httpError s → s ≠ 429 → 0 < cfg.maxAttempts →
      executeWithRetry cfg f = (.apiError, 1, [])) ∧
    ((∀ k, k < cfg.maxAttempts → f k = .httpError 429) → 0 < cfg.maxAttempts →
      executeWithRetry cfg f =
        (.rateLimitError, cfg.maxAttempts,
          backoffSleeps cfg cfg.initialBackoff (cfg.maxAttempts - 1))) := by
  constructor
  · intro s h0 hs hpos
    unfold executeWithRetry
    rcases hn : cfg.maxAttempts with _ | n
    · omega
    · unfold retryGo
      rw [h0]
      simp [hs]
  · intro hall hpos
    unfold executeWithRetry
    rcases hn : cfg.maxAttempts with _ | n
    · omega
    · have := retryGo_all_rate_limited cfg f n 0 cfg.initialBackoff []
        (fun k hk => by
          have hx := hall k (by omega)
          rw [Nat.zero_add]
          exact hx)
      rw [this]
      simp

/-- C9 (witness): the policy theorem at the default retry configuration — a
500 response is surfaced immediately as `APIError` after one attempt with no
sleeps, while all-429 responses exhaust the three attempts with the backoff
schedule and surface as `RateLimitError`. -/
theorem executeWithRetry_policy_witness :
    executeWithRetry ({} : RetryConfig)
        (fun _ => (.httpError 500 : AttemptResult Unit)) = (.apiError, 1, []) ∧
    executeWithRetry ({} : RetryConfig)
        (fun _ => (.httpError 429 : AttemptResult Unit)) =
      (.rateLimitError, 3, backoffSleeps {} 1 2) :=
  ⟨(executeWithRetry_policy {} (fun _ => (.httpError 500 : AttemptResult Unit))).1
      500 rfl (by decide) (by decide),
   (executeWithRetry_policy {} (fun _ => (.httpError 429 : AttemptResult Unit))).2
      (fun k hk => rfl) (by decide)⟩

/-- C9 (counterexample): a transient 5xx response — here a plain HTTP 500 —
is **not** retried: `_execute_with_retry` raises `APIError` after exactly one
attempt with no backoff sleep, because only status 429 takes the retry
branch. -/
theorem http500_not_retried_counterexample :
    executeWithRetry ({} : RetryConfig)
      (fun _ => (.httpError 500 : AttemptResult Unit)) = (.apiError, 1, []) ∧
    (1 : Nat) < ({} : RetryConfig).maxAttempts := by
  constructor
  · rfl
  · decide

end MusicLinks
